import Mathlib

/-!
Shallow embedding of `src/logging/logging.go` from samwestmoreland/go-cli-init.

The embedding covers:
* the `Verbosity` flag value and its parser (`UnmarshalFlag`, `fromInt`),
* the log-file acquisition routine (`initLogFile`, `logFileName`) over an
  explicit model of the filesystem / advisory-lock state,
* the level registry (`logLevelInfo` with `Register`, `ModuleLevels`,
  `SetLevel`) and (re-)initialisation (`initialiseLogging`), with the
  external go-logging `moduleLeveled` backend modelled from its documented
  lookup semantics (module entry, else root entry, else DEBUG).

Go `error` results become `Except`/explicit error inductives; the mutation of
receivers becomes explicit state passing; the `sync.Mutex` is dropped (each
operation is modelled as one atomic state transition).
-/

namespace GoCliInit

/-- go-logging's `logging.Level`: CRITICAL=0, ERROR=1, WARNING=2, NOTICE=3,
INFO=4, DEBUG=5. -/
inductive Level where
  | critical
  | error
  | warning
  | notice
  | info
  | debug
deriving DecidableEq, Repr

/-- The numeric value of a level, matching go-logging's iota order. -/
def Level.toNat : Level → Nat
  | .critical => 0
  | .error => 1
  | .warning => 2
  | .notice => 3
  | .info => 4
  | .debug => 5

/-- `type Verbosity logging.Level`. -/
abbrev Verbosity := Level

/-- `MaxVerbosity Verbosity = Verbosity(logging.DEBUG)`. -/
def MaxVerbosity : Verbosity := Level.debug

/-- `MinVerbosity Verbosity = Verbosity(logging.ERROR)`. -/
def MinVerbosity : Verbosity := Level.error

/-- `fileAttempts = 10`: the number of log files we attempt before giving up. -/
def fileAttempts : Nat := 10

/-- Value of a nonempty all-digit character list, as `strconv` reads it
(most significant digit first). -/
def digitsVal (l : List Char) : Option Nat :=
  if l = [] then none
  else if l.all (fun c => c.isDigit) then
    some (l.foldl (fun a c => a * 10 + (c.toNat - 48)) 0)
  else none

/-- Model of Go `strconv.Atoi` on the character list of the input: an optional
sign followed by at least one ASCII digit, failing (like `ErrRange`) when the
value does not fit in a 64-bit `int`. -/
def atoiL (l : List Char) : Option Int :=
  match (if l.head? = some '+' then (digitsVal l.tail).map (fun n => (n : Int))
         else if l.head? = some '-' then (digitsVal l.tail).map (fun n => -(n : Int))
         else (digitsVal l).map (fun n => (n : Int))) with
  | none => none
  | some i => if -(2 ^ 63) ≤ i ∧ i < 2 ^ 63 then some i else none

/-- `strconv.Atoi` on a string. -/
def atoi (s : String) : Option Int := atoiL s.data

/-- `strings.Count(in, "v")` for the one-character pattern: the number of
`v` characters. -/
def countV (l : List Char) : Nat := (l.filter (fun c => c = 'v')).length

/-- `Verbosity.fromInt`: negative levels clamp to CRITICAL; every other value
that reaches this fallback becomes DEBUG (the source performs no upper-bound
test). The warning it logs is not modelled. -/
def fromInt (i : Int) : Verbosity :=
  if i < 0 then Level.critical else Level.debug

/-- The body of `Verbosity.UnmarshalFlag` on a character list that has already
been lowered: the `switch` over named/short forms, then `strconv.Atoi`, then
the repeated-`v` count, else the "Invalid log level" error. The `Except.ok`
value is the verbosity written through the receiver pointer. -/
def unmarshalFlagCore (s : List Char) : Except String Verbosity :=
  if s = "critical".data ∨ s = "fatal".data then .ok Level.critical
  else if s = "0".data ∨ s = "error".data then .ok Level.error
  else if s = "1".data ∨ s = "warning".data ∨ s = "warn".data then .ok Level.warning
  else if s = "2".data ∨ s = "notice".data ∨ s = "v".data then .ok Level.notice
  else if s = "3".data ∨ s = "info".data ∨ s = "vv".data then .ok Level.info
  else if s = "4".data ∨ s = "debug".data ∨ s = "vvv".data then .ok Level.debug
  else
    match atoiL s with
    | some i => .ok (fromInt i)
    | none =>
      if s.length = countV s then .ok (fromInt (countV s))
      else .error ("Invalid log level " ++ String.mk s)

/-- `Verbosity.UnmarshalFlag`: lowers the input (`strings.ToLower`, modelled
per character by `Char.toLower`) and runs the core. -/
def UnmarshalFlag (input : String) : Except String Verbosity :=
  unmarshalFlagCore (input.data.map Char.toLower)

/-- `logFileName(base, attempt)`: the base path for attempt 0, then
`base.<attempt>`. -/
def logFileName (base : String) (attempt : Nat) : String :=
  if attempt = 0 then base else base ++ "." ++ toString attempt

/-- The permission bits passed to both `os.OpenFile` calls in `initLogFile`. -/
def filePerm : Nat := 0o664

/-- The permission bits of the `os.MkdirAll` call in `initLogFile`. -/
def dirPerm : Nat := 0o755

/-- Explicit model of the filesystem and advisory-lock environment that
`initLogFile` runs against: which paths a concurrent process holds an
exclusive `flock` on, which syscalls fail, and the sizes of existing files. -/
structure FSState where
  heldElsewhere : List String
  openFails : List String
  truncateFails : List String
  seekFails : List String
  mkdirFails : Bool
  sizes : List (String × Nat)
deriving DecidableEq, Repr

/-- Look up the size of an existing file. -/
def FSState.sizeOf (fs : FSState) (p : String) : Option Nat :=
  (fs.sizes.find? (fun e => e.1 = p)).map (fun e => e.2)

/-- `os.OpenFile` with `O_CREATE`: add the file with size 0 if absent. -/
def FSState.ensure (fs : FSState) (p : String) : FSState :=
  match fs.sizeOf p with
  | some _ => fs
  | none => { fs with sizes := fs.sizes ++ [(p, 0)] }

/-- `f.Truncate(n)`: set the size of the file at `p`. -/
def FSState.setSize (fs : FSState) (p : String) (n : Nat) : FSState :=
  { fs with sizes := fs.sizes.map (fun e => if e.1 = p then (e.1, n) else e) }

/-- The open `*os.File` handle `initLogFile` returns: its path, current size,
current read/write offset, whether it was opened with `O_APPEND`, and whether
this process acquired the advisory lock. -/
structure LogFile where
  path : String
  size : Nat
  offset : Nat
  appendMode : Bool
  locked : Bool
deriving DecidableEq, Repr

/-- The distinct error results of `initLogFile`. -/
inductive InitErr where
  | mkdirFailed
  | openFailed (path : String)
  | truncateFailed (path : String)
  | seekFailed (path : String)
  | lockExhausted (attempts : Nat)
deriving DecidableEq, Repr

/-- The message of the exhaustion error (`fmt.Errorf`). -/
def InitErr.message : InitErr → String
  | .lockExhausted n => "Failed to acquire a log file after " ++ toString n ++ " attempts"
  | .mkdirFailed => "mkdir failed"
  | .openFailed p => "open failed: " ++ p
  | .truncateFailed p => "truncate failed: " ++ p
  | .seekFailed p => "seek failed: " ++ p

/-- What one run of `initLogFile` produced: the Go `(*os.File, error)` pair as
an `Except`, the `(path, perm)` of every `os.OpenFile` call it issued in
order, and the filesystem state it left behind. -/
structure InitResult where
  res : Except InitErr LogFile
  opened : List (String × Nat)
  fs : FSState
deriving Repr

/-- The non-append loop of `initLogFile`, for attempt `i` while
`i < fileAttempts`; `remaining` is the fuel `fileAttempts - i`, so the loop
runs `for i := 0; i < fileAttempts; i++`. Each iteration opens (or creates)
candidate `i` without truncating and tries a non-blocking exclusive `flock`;
on lock failure it closes the handle and continues; on lock success it
truncates the file to zero length, seeks to the start and returns the
handle. -/
def freshLoop (filename : String) : Nat → Nat → List (String × Nat) → FSState → InitResult
  | _i, 0, opened, fs => ⟨.error (.lockExhausted fileAttempts), opened, fs⟩
  | i, remaining + 1, opened, fs =>
    let p := logFileName filename i
    if p ∈ fs.openFails then
      ⟨.error (.openFailed p), opened ++ [(p, filePerm)], fs⟩
    else
      let fs1 := fs.ensure p
      let opened1 := opened ++ [(p, filePerm)]
      if p ∈ fs.heldElsewhere then
        freshLoop filename (i + 1) remaining opened1 fs1
      else if p ∈ fs.truncateFails then
        ⟨.error (.truncateFailed p), opened1, fs1⟩
      else
        let fs2 := fs1.setSize p 0
        if p ∈ fs.seekFails then
          ⟨.error (.seekFailed p), opened1, fs2⟩
        else
          ⟨.ok ⟨p, 0, 0, false, true⟩, opened1, fs2⟩

/-- The handle the append branch of `initLogFile` returns: the exact
requested path, opened `O_RDWR|O_CREATE|O_APPEND`, with the lock held only
when no other process already holds it (the `Flock` result is discarded). -/
def appendHandle (filename : String) (fs : FSState) : LogFile :=
  let sz := ((fs.ensure filename).sizeOf filename).getD 0
  ⟨filename, sz, sz, true, filename ∉ fs.heldElsewhere⟩

/-- `initLogFile(filename, append)`: create the parent directories, then
either open exactly `filename` for appending with a best-effort lock, or run
the fresh-file selection loop. -/
def initLogFile (filename : String) (append : Bool) (fs : FSState) : InitResult :=
  if fs.mkdirFails then ⟨.error .mkdirFailed, [], fs⟩
  else if append then
    if filename ∈ fs.openFails then
      ⟨.error (.openFailed filename), [(filename, filePerm)], fs⟩
    else
      ⟨.ok (appendHandle filename fs), [(filename, filePerm)], fs.ensure filename⟩
  else
    freshLoop filename 0 fileAttempts [] fs

/-- Association-list update with Go-map semantics: replace the entry for the
key if present, else append it. -/
def mapInsert (m : List (String × Level)) (k : String) (v : Level) :
    List (String × Level) :=
  if m.any (fun e => e.1 = k) then
    m.map (fun e => if e.1 = k then (k, v) else e)
  else
    m ++ [(k, v)]

/-- Association-list lookup with Go-map semantics. -/
def mapFind (m : List (String × Level)) (k : String) : Option Level :=
  (m.find? (fun e => e.1 = k)).map (fun e => e.2)

/-- Model of go-logging's `moduleLeveled` backend (external collaborator): it
holds the per-module level map. -/
structure LeveledBackend where
  levels : List (String × Level)
deriving Repr

/-- go-logging `moduleLeveled.GetLevel`: the module's entry if set, else the
root (`""`) entry, else DEBUG. -/
def LeveledBackend.GetLevel (b : LeveledBackend) (module : String) : Level :=
  match mapFind b.levels module with
  | some l => l
  | none =>
    match mapFind b.levels "" with
    | some l => l
    | none => Level.debug

/-- go-logging `moduleLeveled.SetLevel`: `l.levels[module] = level`. -/
def LeveledBackend.SetLevel (b : LeveledBackend) (level : Level)
    (module : String) : LeveledBackend :=
  ⟨mapInsert b.levels module level⟩

/-- `initLogging(verbosity, out, ...)` restricted to its level content: wrap a
fresh backend with `AddModuleLevel` (empty level map) and set its root level
to the verbosity. Formatting, colour and the output handle do not affect the
level registry and are not modelled. -/
def initLogging (verbosity : Verbosity) : LeveledBackend :=
  LeveledBackend.SetLevel ⟨[]⟩ verbosity ""

/-- The `logLevelInfo` registry state: `backend` is `none` while unbound (the
zero value of the Go interface field is `nil`), and `modules` is the tracked
name set (`map[string]struct{}`, kept here as a duplicate-free list). The
mutex is dropped: each operation is one atomic transition. -/
structure logLevelInfo where
  backend : Option LeveledBackend
  modules : List String
deriving Repr

/-- `var logInfo = logLevelInfo{modules: map[string]struct{}{}}`. -/
def logInfo : logLevelInfo := ⟨none, []⟩

/-- The outcome of calling a method that invokes `info.backend`: either a
value, or the runtime panic from calling a method on the nil interface. -/
inductive CallOutcome (α : Type) where
  | ok (a : α)
  | nilDeref
deriving Repr

/-- `logLevelInfo.Register`: `info.modules[name] = struct{}{}` — insert the
name into the set (a no-op when already present). -/
def Register (name : String) (info : logLevelInfo) : logLevelInfo :=
  if name ∈ info.modules then info
  else { info with modules := info.modules ++ [name] }

/-- The fresh map the `ModuleLevels` body builds: `levels[""]` is set to the
backend's root level, then each tracked module's level is read through the
backend and inserted. -/
def snapOf (b : LeveledBackend) (modules : List String) : List (String × Level) :=
  modules.foldl (fun acc m => mapInsert acc m (b.GetLevel m))
    (mapInsert [] "" (b.GetLevel ""))

/-- `logLevelInfo.ModuleLevels`: build a fresh map holding the root level
under `""` and the level of every tracked module, each read through the live
backend. With a nil backend the `GetLevel` call panics. -/
def ModuleLevels (info : logLevelInfo) : CallOutcome (List (String × Level)) :=
  match info.backend with
  | none => .nilDeref
  | some b => .ok (snapOf b info.modules)

/-- `logLevelInfo.SetLevel`: forward to the backend; with a nil backend the
call panics. -/
def SetLevel (level : Level) (module : String) (info : logLevelInfo) :
    CallOutcome logLevelInfo :=
  match info.backend with
  | none => .nilDeref
  | some b => .ok { info with backend := some (b.SetLevel level module) }

/-- `initialiseLogging`: build a fresh leveled backend at the given verbosity,
install it globally (`logging.SetBackend`) and store it as the registry's
active backend; the tracked module set is untouched. -/
def initialiseLogging (verbosity : Verbosity) (info : logLevelInfo) :
    logLevelInfo :=
  { info with backend := some (initLogging verbosity) }

/-- Number of entries of a built map that carry the given key. -/
def countKey (m : List (String × Level)) (k : String) : Nat :=
  m.countP (fun e => e.1 = k)

/-- An environment with no contention and no failing syscalls. -/
def fsQuiet : FSState := ⟨[], [], [], [], false, []⟩

/-- An environment where another process holds the lock on `log` and both
`log` and `log.1` already have contents. -/
def fsBaseHeld : FSState :=
  ⟨["log"], [], [], [], false, [("log", 7), ("log.1", 5)]⟩

/-- An environment where another process holds the lock on all ten fresh-file
candidates for `log`. -/
def fsAllHeld : FSState :=
  ⟨(List.range fileAttempts).map (logFileName "log"), [], [], [], false, []⟩

/-- An environment where `os.MkdirAll` fails. -/
def fsNoDir : FSState := ⟨[], [], [], [], true, []⟩

/-- A registry bound to a backend whose root level is INFO, tracking no
modules yet. -/
def infoBound : logLevelInfo := ⟨some ⟨[("", Level.info)]⟩, []⟩

/-! ## Lemmas about the filesystem model -/

@[simp]
theorem FSState.ensure_heldElsewhere (fs : FSState) (p : String) :
    (fs.ensure p).heldElsewhere = fs.heldElsewhere := by
  unfold FSState.ensure; split <;> rfl

@[simp]
theorem FSState.ensure_openFails (fs : FSState) (p : String) :
    (fs.ensure p).openFails = fs.openFails := by
  unfold FSState.ensure; split <;> rfl

@[simp]
theorem FSState.ensure_truncateFails (fs : FSState) (p : String) :
    (fs.ensure p).truncateFails = fs.truncateFails := by
  unfold FSState.ensure; split <;> rfl

@[simp]
theorem FSState.ensure_seekFails (fs : FSState) (p : String) :
    (fs.ensure p).seekFails = fs.seekFails := by
  unfold FSState.ensure; split <;> rfl

@[simp]
theorem FSState.ensure_mkdirFails (fs : FSState) (p : String) :
    (fs.ensure p).mkdirFails = fs.mkdirFails := by
  unfold FSState.ensure; split <;> rfl

theorem FSState.sizeOf_ensure_isSome (fs : FSState) (p : String) :
    ((fs.ensure p).sizeOf p).isSome := by
  unfold FSState.ensure
  cases h : fs.sizeOf p with
  | some v => simp [h]
  | none =>
    have hf : fs.sizes.find? (fun e => e.1 = p) = none := by
      unfold FSState.sizeOf at h
      exact Option.map_eq_none'.mp h
    simp [FSState.sizeOf, h, List.find?_append, hf]

theorem find?_setSize (l : List (String × Nat)) (p : String) (n : Nat)
    (h : (l.find? (fun e => e.1 = p)).isSome) :
    (l.map (fun e => if e.1 = p then (e.1, n) else e)).find?
      (fun e => e.1 = p) = some (p, n) := by
  induction l with
  | nil => simp at h
  | cons e t ih =>
    by_cases he : e.1 = p
    · simp [List.find?_cons, he]
    · have hq : (decide (e.1 = p)) = false := by simp [he]
      simp only [List.find?_cons, hq] at h
      simp only [List.map_cons, if_neg he, List.find?_cons, hq]
      exact ih h

theorem FSState.sizeOf_setSize_self (fs : FSState) (p : String) (n : Nat)
    (h : (fs.sizeOf p).isSome) : (fs.setSize p n).sizeOf p = some n := by
  have hf : (fs.sizes.find? (fun e => e.1 = p)).isSome := by
    unfold FSState.sizeOf at h
    exact Option.isSome_map' .. ▸ h
  unfold FSState.setSize FSState.sizeOf
  simp [find?_setSize fs.sizes p n hf]

/-! ## Lemmas about the fresh-file loop -/

@[simp]
theorem logFileName_zero (base : String) : logFileName base 0 = base := rfl

theorem logFileName_one (base : String) : logFileName base 1 = base ++ ".1" := by
  simp [logFileName, String.append_assoc]
  rfl

theorem freshLoop_zero (fn : String) (i : Nat) (opened : List (String × Nat))
    (fs : FSState) :
    freshLoop fn i 0 opened fs =
      ⟨.error (.lockExhausted fileAttempts), opened, fs⟩ := rfl

theorem freshLoop_succ (fn : String) (i r : Nat) (opened : List (String × Nat))
    (fs : FSState) :
    freshLoop fn i (r + 1) opened fs =
      if logFileName fn i ∈ fs.openFails then
        ⟨.error (.openFailed (logFileName fn i)),
          opened ++ [(logFileName fn i, filePerm)], fs⟩
      else if logFileName fn i ∈ fs.heldElsewhere then
        freshLoop fn (i + 1) r (opened ++ [(logFileName fn i, filePerm)])
          (fs.ensure (logFileName fn i))
      else if logFileName fn i ∈ fs.truncateFails then
        ⟨.error (.truncateFailed (logFileName fn i)),
          opened ++ [(logFileName fn i, filePerm)], fs.ensure (logFileName fn i)⟩
      else if logFileName fn i ∈ fs.seekFails then
        ⟨.error (.seekFailed (logFileName fn i)),
          opened ++ [(logFileName fn i, filePerm)],
          (fs.ensure (logFileName fn i)).setSize (logFileName fn i) 0⟩
      else
        ⟨.ok ⟨logFileName fn i, 0, 0, false, true⟩,
          opened ++ [(logFileName fn i, filePerm)],
          (fs.ensure (logFileName fn i)).setSize (logFileName fn i) 0⟩ := rfl

theorem freshLoop_all_held (fn : String) (fuel : Nat) :
    ∀ (i : Nat) (acc : List (String × Nat)) (fs : FSState),
      (∀ k, i ≤ k → k < i + fuel → logFileName fn k ∈ fs.heldElsewhere) →
      (∀ k, i ≤ k → k < i + fuel → logFileName fn k ∉ fs.openFails) →
      freshLoop fn i fuel acc fs =
        ⟨.error (.lockExhausted fileAttempts),
          acc ++ (List.range' i fuel).map (fun k => (logFileName fn k, filePerm)),
          (List.range' i fuel).foldl (fun s k => s.ensure (logFileName fn k)) fs⟩ := by
  induction fuel with
  | zero =>
    intro i acc fs _ _
    simp [freshLoop_zero]
  | succ r ih =>
    intro i acc fs hheld hopen
    rw [freshLoop_succ,
      if_neg (hopen i (le_refl i) (by omega)),
      if_pos (hheld i (le_refl i) (by omega))]
    rw [ih (i + 1) (acc ++ [(logFileName fn i, filePerm)])
      (fs.ensure (logFileName fn i))
      (fun k h1 h2 => by
        rw [FSState.ensure_heldElsewhere]
        exact hheld k (by omega) (by omega))
      (fun k h1 h2 => by
        rw [FSState.ensure_openFails]
        exact hopen k (by omega) (by omega))]
    rw [List.range'_succ]
    simp [List.append_assoc]

theorem freshLoop_opened_perm (fn : String) (fuel : Nat) :
    ∀ (i : Nat) (acc : List (String × Nat)) (fs : FSState),
      (∀ pr ∈ acc, pr.2 = filePerm) →
      ∀ pr ∈ (freshLoop fn i fuel acc fs).opened, pr.2 = filePerm := by
  induction fuel with
  | zero =>
    intro i acc fs hacc
    rw [freshLoop_zero]
    exact hacc
  | succ r ih =>
    intro i acc fs hacc
    have hacc' : ∀ pr ∈ acc ++ [(logFileName fn i, filePerm)], pr.2 = filePerm := by
      intro pr hpr
      rcases List.mem_append.mp hpr with h | h
      · exact hacc pr h
      · simp only [List.mem_singleton] at h
        rw [h]
    rw [freshLoop_succ]
    split_ifs with h1 h2 h3 h4
    · exact hacc'
    · exact ih (i + 1) _ _ hacc'
    · exact hacc'
    · exact hacc'
    · exact hacc'

/-! ## The file-sink claims -/

/-- C1: in fresh-file mode, with the base path exclusively lock-held by
another holder and the next candidate free, `initLogFile` returns a handle on
`path.1` (not `path`), truncated to zero length with its write offset reset
to the start; the file on disk is truncated as well. -/
theorem initLogFile_fresh_skips_locked_base (base : String) (fs : FSState)
    (hmk : fs.mkdirFails = false)
    (hopen0 : base ∉ fs.openFails)
    (hheld0 : base ∈ fs.heldElsewhere)
    (hopen1 : base ++ ".1" ∉ fs.openFails)
    (hheld1 : base ++ ".1" ∉ fs.heldElsewhere)
    (htr1 : base ++ ".1" ∉ fs.truncateFails)
    (hsk1 : base ++ ".1" ∉ fs.seekFails) :
    (initLogFile base false fs).res = .ok ⟨base ++ ".1", 0, 0, false, true⟩ ∧
    ((initLogFile base false fs).fs).sizeOf (base ++ ".1") = some 0 := by
  have h0 : initLogFile base false fs = freshLoop base 0 fileAttempts [] fs := by
    simp [initLogFile, hmk]
  rw [h0, show fileAttempts = 9 + 1 from rfl, freshLoop_succ, logFileName_zero,
    if_neg hopen0, if_pos hheld0,
    show (9 : Nat) = 8 + 1 from rfl, freshLoop_succ, logFileName_one]
  rw [FSState.ensure_openFails, FSState.ensure_heldElsewhere,
    FSState.ensure_truncateFails, FSState.ensure_seekFails,
    if_neg hopen1, if_neg hheld1, if_neg htr1, if_neg hsk1]
  exact ⟨rfl, FSState.sizeOf_setSize_self _ _ _ (FSState.sizeOf_ensure_isSome _ _)⟩

/-- C1 witness: with `log` locked by another process and `log.1` free but
holding five bytes, the selector returns a truncated handle on `log.1`. -/
theorem initLogFile_fresh_skips_locked_base_witness :
    (initLogFile "log" false fsBaseHeld).res = .ok ⟨"log.1", 0, 0, false, true⟩ ∧
    ((initLogFile "log" false fsBaseHeld).fs).sizeOf "log.1" = some 0 :=
  initLogFile_fresh_skips_locked_base "log" fsBaseHeld rfl (by decide) (by decide)
    (by decide) (by decide) (by decide) (by decide)

/-- C2: in fresh-file mode, when all `fileAttempts = 10` candidates are
lock-held, `initLogFile` fails with the exhaustion error naming the attempt
count, and the files it opened are exactly the ten candidates — no eleventh
open occurs. -/
theorem initLogFile_fresh_exhaustion (base : String) (fs : FSState)
    (hmk : fs.mkdirFails = false)
    (hheld : ∀ i, i < fileAttempts → logFileName base i ∈ fs.heldElsewhere)
    (hopen : ∀ i, i < fileAttempts → logFileName base i ∉ fs.openFails) :
    (initLogFile base false fs).res = .error (.lockExhausted fileAttempts) ∧
    (initLogFile base false fs).opened =
      (List.range fileAttempts).map (fun i => (logFileName base i, filePerm)) ∧
    (initLogFile base false fs).opened.length = fileAttempts := by
  have h0 : initLogFile base false fs = freshLoop base 0 fileAttempts [] fs := by
    simp [initLogFile, hmk]
  rw [h0, freshLoop_all_held base fileAttempts 0 [] fs
    (fun k _ h2 => hheld k (by omega)) (fun k _ h2 => hopen k (by omega))]
  refine ⟨rfl, ?_, ?_⟩ <;> simp [List.range_eq_range']

/-- C2 witness: with all ten candidates for `log` lock-held, the run fails
with the count-10 exhaustion error after exactly ten opens. -/
theorem initLogFile_fresh_exhaustion_witness :
    (initLogFile "log" false fsAllHeld).res = .error (.lockExhausted fileAttempts) ∧
    (initLogFile "log" false fsAllHeld).opened =
      (List.range fileAttempts).map (fun i => (logFileName "log" i, filePerm)) ∧
    (initLogFile "log" false fsAllHeld).opened.length = fileAttempts :=
  initLogFile_fresh_exhaustion "log" fsAllHeld rfl (by decide) (by decide)

/-- C3: in append mode, whenever the open succeeds `initLogFile` returns a
handle on exactly the requested path opened for appending, whatever the state
of the advisory lock — lock contention alone never produces an error. -/
theorem initLogFile_append_ignores_lock (filename : String) (fs : FSState)
    (hmk : fs.mkdirFails = false)
    (hopen : filename ∉ fs.openFails) :
    (initLogFile filename true fs).res = .ok (appendHandle filename fs) ∧
    (appendHandle filename fs).path = filename ∧
    (appendHandle filename fs).appendMode = true := by
  refine ⟨?_, rfl, rfl⟩
  simp [initLogFile, hmk, hopen]

/-- C3 witness: `log` is lock-held by another process, yet append mode
returns a handle on `log` itself (with the lock not acquired). -/
theorem initLogFile_append_ignores_lock_witness :
    (initLogFile "log" true fsBaseHeld).res = .ok ⟨"log", 7, 7, true, false⟩ ∧
    (appendHandle "log" fsBaseHeld).path = "log" ∧
    (appendHandle "log" fsBaseHeld).appendMode = true :=
  initLogFile_append_ignores_lock "log" fsBaseHeld rfl (by decide)

/-- C9 counterexample: the very first open of an append-mode run uses
permission mode `0o664`, whose low octal digit 4 grants read access to other
users, contradicting the claim that no access bits are granted to others. -/
theorem initLogFile_perm_grants_other_read :
    (initLogFile "log" true fsQuiet).opened = [("log", filePerm)] ∧
    filePerm % 8 ≠ 0 :=
  ⟨rfl, by decide⟩

/-- C9 amended: parent directories are created (mode `0o755`) before any open
is attempted — a directory-creation failure means no open happens at all —
and every open in both modes uses mode `0o664`: read-write for owner and
group, read-only (no write or execute) for other users. -/
theorem initLogFile_mkdir_first_and_perms (fs : FSState) (filename : String)
    (append : Bool) :
    (fs.mkdirFails = true → (initLogFile filename append fs).opened = []) ∧
    (∀ pr ∈ (initLogFile filename append fs).opened, pr.2 = filePerm) ∧
    filePerm = 0o664 ∧ dirPerm = 0o755 ∧ filePerm % 8 = 4 := by
  refine ⟨?_, ?_, rfl, rfl, rfl⟩
  · intro h
    simp [initLogFile, h]
  · by_cases hm : fs.mkdirFails = true
    · simp [initLogFile, hm]
    · rw [Bool.not_eq_true] at hm
      cases append with
      | false =>
        have h0 : initLogFile filename false fs =
            freshLoop filename 0 fileAttempts [] fs := by
          simp [initLogFile, hm]
        rw [h0]
        exact freshLoop_opened_perm filename fileAttempts 0 [] fs
          (fun pr hpr => absurd hpr (List.not_mem_nil pr))
      | true =>
        by_cases ho : filename ∈ fs.openFails
        · simp [initLogFile, hm, ho]
        · simp [initLogFile, hm, ho]

/-- C9 amended witness: when directory creation fails, no file open is
attempted. -/
theorem initLogFile_mkdir_first_and_perms_witness :
    (initLogFile "log" false fsNoDir).opened = [] :=
  (initLogFile_mkdir_first_and_perms fsNoDir "log" false).1 rfl

/-! ## Lemmas about the verbosity parser -/

theorem toLower_of_isDigit (c : Char) (h : c.isDigit = true) : c.toLower = c := by
  unfold Char.toLower
  simp only [Char.isDigit, Bool.and_eq_true, decide_eq_true_eq] at h
  have h2 : c.val.toNat ≤ (57 : UInt32).toNat := h.2
  have h3 : (57 : UInt32).toNat = 57 := rfl
  simp only [ge_iff_le, Bool.and_eq_true, decide_eq_true_eq, ite_eq_right_iff,
    and_imp]
  intro h65 h90
  exfalso
  have hc : c.toNat = c.val.toNat := rfl
  omega

theorem map_toLower_of_digits (l : List Char)
    (h : ∀ c ∈ l, c.isDigit = true) : l.map Char.toLower = l := by
  induction l with
  | nil => rfl
  | cons c t ih =>
    simp only [List.map_cons, toLower_of_isDigit c (h c (by simp)),
      ih (fun d hd => h d (by simp [hd])), List.cons.injEq, true_and]

theorem digitsVal_all (l : List Char) (n : Nat) (h : digitsVal l = some n) :
    ∀ c ∈ l, c.isDigit = true := by
  unfold digitsVal at h
  split_ifs at h with h1 h2
  · exact fun c hc => (List.all_eq_true.mp h2) c hc

/-- An input `strconv.Atoi` accepts consists only of sign and digit
characters, which `strings.ToLower` leaves unchanged. -/
theorem atoiL_map_toLower (l : List Char) (i : Int) (h : atoiL l = some i) :
    l.map Char.toLower = l := by
  cases l with
  | nil => simp [atoiL, digitsVal] at h
  | cons c rest =>
    unfold atoiL at h
    simp only [List.head?_cons, List.tail_cons, Option.some.injEq] at h
    by_cases hc1 : c = '+'
    · rw [if_pos hc1] at h
      cases hd : digitsVal rest with
      | none => rw [hd] at h; simp at h
      | some n =>
        subst hc1
        simp only [List.map_cons, map_toLower_of_digits rest (digitsVal_all rest n hd)]
        rfl
    · rw [if_neg hc1] at h
      by_cases hc2 : c = '-'
      · rw [if_pos hc2] at h
        cases hd : digitsVal rest with
        | none => rw [hd] at h; simp at h
        | some n =>
          subst hc2
          simp only [List.map_cons, map_toLower_of_digits rest (digitsVal_all rest n hd)]
          rfl
      · rw [if_neg hc2] at h
        cases hd : digitsVal (c :: rest) with
        | none => rw [hd] at h; simp at h
        | some n => exact map_toLower_of_digits _ (digitsVal_all _ n hd)

/-- When `strconv.Atoi` succeeds and the value is outside 0..4, the switch
matches nothing and the result is `fromInt` of the parsed value. -/
theorem unmarshalFlagCore_atoi (l : List Char) (i : Int) (h : atoiL l = some i)
    (hrange : i < 0 ∨ 4 < i) : unmarshalFlagCore l = .ok (fromInt i) := by
  unfold unmarshalFlagCore
  split_ifs with h1 h2 h3 h4 h5 h6
  · rcases h1 with h1 | h1 <;> rw [h1] at h
    · rw [show atoiL "critical".data = none from rfl] at h; exact Option.noConfusion h
    · rw [show atoiL "fatal".data = none from rfl] at h; exact Option.noConfusion h
  · rcases h2 with h2 | h2 <;> rw [h2] at h
    · rw [show atoiL "0".data = some 0 from rfl] at h
      injection h with h'
      omega
    · rw [show atoiL "error".data = none from rfl] at h; exact Option.noConfusion h
  · rcases h3 with h3 | h3 | h3 <;> rw [h3] at h
    · rw [show atoiL "1".data = some 1 from rfl] at h
      injection h with h'
      omega
    · rw [show atoiL "warning".data = none from rfl] at h; exact Option.noConfusion h
    · rw [show atoiL "warn".data = none from rfl] at h; exact Option.noConfusion h
  · rcases h4 with h4 | h4 | h4 <;> rw [h4] at h
    · rw [show atoiL "2".data = some 2 from rfl] at h
      injection h with h'
      omega
    · rw [show atoiL "notice".data = none from rfl] at h; exact Option.noConfusion h
    · rw [show atoiL "v".data = none from rfl] at h; exact Option.noConfusion h
  · rcases h5 with h5 | h5 | h5 <;> rw [h5] at h
    · rw [show atoiL "3".data = some 3 from rfl] at h
      injection h with h'
      omega
    · rw [show atoiL "info".data = none from rfl] at h; exact Option.noConfusion h
    · rw [show atoiL "vv".data = none from rfl] at h; exact Option.noConfusion h
  · rcases h6 with h6 | h6 | h6 <;> rw [h6] at h
    · rw [show atoiL "4".data = some 4 from rfl] at h
      injection h with h'
      omega
    · rw [show atoiL "debug".data = none from rfl] at h; exact Option.noConfusion h
    · rw [show atoiL "vvv".data = none from rfl] at h; exact Option.noConfusion h
  all_goals rw [h]

theorem ne_replicate_v (n : Nat) (lit : List Char) (c0 : Char)
    (hmem : c0 ∈ lit) (hne : ¬ c0 = 'v') : ¬ List.replicate n 'v' = lit := by
  intro h
  exact hne (List.eq_of_mem_replicate (h ▸ hmem))

theorem ne_replicate_v_len (n : Nat) (lit : List Char)
    (hlen : lit.length ≠ n) : ¬ List.replicate n 'v' = lit := by
  intro h
  exact hlen (by rw [← h, List.length_replicate])

theorem countV_replicate (n : Nat) : countV (List.replicate n 'v') = n := by
  unfold countV
  rw [List.filter_eq_self.mpr, List.length_replicate]
  intro a ha
  rw [List.eq_of_mem_replicate ha]
  simp

theorem atoiL_replicate_v (m : Nat) :
    atoiL (List.replicate (m + 1) 'v') = none := by
  rw [List.replicate_succ]
  simp [atoiL, digitsVal]

/-! ## The verbosity-parsing claims -/

/-- C5: parsing is case-insensitive (inputs equal after lowering parse
identically) and total on every valid named, numeric or repeated-flag form;
a decimal integer below 0 clamps to CRITICAL and one above 4 clamps to
DEBUG, with `nil` error in every case. -/
theorem UnmarshalFlag_total_caseInsensitive_clamps :
    (∀ s t : String, s.data.map Char.toLower = t.data.map Char.toLower →
        UnmarshalFlag s = UnmarshalFlag t) ∧
    ((UnmarshalFlag "critical" = .ok Level.critical) ∧
      (UnmarshalFlag "fatal" = .ok Level.critical) ∧
      (UnmarshalFlag "0" = .ok Level.error) ∧
      (UnmarshalFlag "error" = .ok Level.error) ∧
      (UnmarshalFlag "1" = .ok Level.warning) ∧
      (UnmarshalFlag "warning" = .ok Level.warning) ∧
      (UnmarshalFlag "warn" = .ok Level.warning) ∧
      (UnmarshalFlag "2" = .ok Level.notice) ∧
      (UnmarshalFlag "notice" = .ok Level.notice) ∧
      (UnmarshalFlag "v" = .ok Level.notice) ∧
      (UnmarshalFlag "3" = .ok Level.info) ∧
      (UnmarshalFlag "info" = .ok Level.info) ∧
      (UnmarshalFlag "vv" = .ok Level.info) ∧
      (UnmarshalFlag "4" = .ok Level.debug) ∧
      (UnmarshalFlag "debug" = .ok Level.debug) ∧
      (UnmarshalFlag "vvv" = .ok Level.debug) ∧
      (UnmarshalFlag "DEBUG" = .ok Level.debug) ∧
      (UnmarshalFlag "Warning" = .ok Level.warning) ∧
      (UnmarshalFlag "FATAL" = .ok Level.critical)) ∧
    (∀ (s : String) (i : Int), atoi s = some i → i < 0 →
        UnmarshalFlag s = .ok Level.critical) ∧
    (∀ (s : String) (i : Int), atoi s = some i → 4 < i →
        UnmarshalFlag s = .ok Level.debug) := by
  refine ⟨?_, ?_, ?_, ?_⟩
  · intro s t h
    unfold UnmarshalFlag
    rw [h]
  · exact ⟨rfl, rfl, rfl, rfl, rfl, rfl, rfl, rfl, rfl, rfl, rfl, rfl, rfl,
      rfl, rfl, rfl, rfl, rfl, rfl⟩
  · intro s i h hneg
    have hfix : s.data.map Char.toLower = s.data := atoiL_map_toLower s.data i h
    unfold UnmarshalFlag
    rw [hfix, unmarshalFlagCore_atoi s.data i h (Or.inl hneg)]
    unfold fromInt
    rw [if_pos hneg]
  · intro s i h hpos
    have hfix : s.data.map Char.toLower = s.data := atoiL_map_toLower s.data i h
    unfold UnmarshalFlag
    rw [hfix, unmarshalFlagCore_atoi s.data i h (Or.inr hpos)]
    unfold fromInt
    rw [if_neg (by omega)]

/-- C5 witness: "-7" parses (without error) to CRITICAL and "11" to DEBUG. -/
theorem UnmarshalFlag_total_caseInsensitive_clamps_witness :
    UnmarshalFlag "-7" = .ok Level.critical ∧
    UnmarshalFlag "11" = .ok Level.debug :=
  ⟨UnmarshalFlag_total_caseInsensitive_clamps.2.2.1 "-7" (-7) (by decide)
      (by decide),
    UnmarshalFlag_total_caseInsensitive_clamps.2.2.2 "11" 11 (by decide)
      (by decide)⟩

/-- C10: inputs outside the documented valid set also parse without error and
map to DEBUG: the empty string, alternate decimal spellings of in-range
levels such as "00" and "+2", and four or more repeated 'v's; indeed every
non-negative integer reaching the `fromInt` fallback yields DEBUG. -/
theorem UnmarshalFlag_fallback_debug :
    (UnmarshalFlag "" = .ok Level.debug) ∧
    (UnmarshalFlag "00" = .ok Level.debug) ∧
    (UnmarshalFlag "+2" = .ok Level.debug) ∧
    (∀ n : Nat, 4 ≤ n →
      UnmarshalFlag (String.mk (List.replicate n 'v')) = .ok Level.debug) ∧
    (∀ i : Int, 0 ≤ i → fromInt i = Level.debug) := by
  refine ⟨rfl, rfl, rfl, ?_, ?_⟩
  · intro n hn
    obtain ⟨m, rfl⟩ : ∃ m, n = m + 4 := ⟨n - 4, by omega⟩
    show unmarshalFlagCore ((List.replicate (m + 4) 'v').map Char.toLower) =
      .ok Level.debug
    rw [List.map_replicate, show Char.toLower 'v' = 'v' from by decide]
    unfold unmarshalFlagCore
    rw [if_neg ?hc1, if_neg ?hc2, if_neg ?hc3, if_neg ?hc4, if_neg ?hc5,
      if_neg ?hc6]
    case hc1 =>
      rintro (h | h)
      · exact ne_replicate_v _ _ 'c' (by decide) (by decide) h
      · exact ne_replicate_v _ _ 'f' (by decide) (by decide) h
    case hc2 =>
      rintro (h | h)
      · exact ne_replicate_v _ _ '0' (by decide) (by decide) h
      · exact ne_replicate_v _ _ 'e' (by decide) (by decide) h
    case hc3 =>
      rintro (h | h | h)
      · exact ne_replicate_v _ _ '1' (by decide) (by decide) h
      · exact ne_replicate_v _ _ 'w' (by decide) (by decide) h
      · exact ne_replicate_v _ _ 'w' (by decide) (by decide) h
    case hc4 =>
      rintro (h | h | h)
      · exact ne_replicate_v _ _ '2' (by decide) (by decide) h
      · exact ne_replicate_v _ _ 'n' (by decide) (by decide) h
      · exact ne_replicate_v_len _ _
          (by have h1 : ("v".data).length = 1 := rfl; omega) h
    case hc5 =>
      rintro (h | h | h)
      · exact ne_replicate_v _ _ '3' (by decide) (by decide) h
      · exact ne_replicate_v _ _ 'i' (by decide) (by decide) h
      · exact ne_replicate_v_len _ _
          (by have h1 : ("vv".data).length = 2 := rfl; omega) h
    case hc6 =>
      rintro (h | h | h)
      · exact ne_replicate_v _ _ '4' (by decide) (by decide) h
      · exact ne_replicate_v _ _ 'd' (by decide) (by decide) h
      · exact ne_replicate_v_len _ _
          (by have h1 : ("vvv".data).length = 3 := rfl; omega) h
    rw [show m + 4 = m + 3 + 1 from rfl, atoiL_replicate_v (m + 3)]
    simp only [countV_replicate, List.length_replicate, if_true]
    unfold fromInt
    rw [if_neg (by omega)]
  · intro i hi
    unfold fromInt
    rw [if_neg (by omega)]

/-- C10 witness: "vvvv" parses to DEBUG, and the fallback maps 5 to DEBUG. -/
theorem UnmarshalFlag_fallback_debug_witness :
    UnmarshalFlag (String.mk (List.replicate 4 'v')) = .ok Level.debug ∧
    fromInt 5 = Level.debug :=
  ⟨UnmarshalFlag_fallback_debug.2.2.2.1 4 (by decide),
    UnmarshalFlag_fallback_debug.2.2.2.2 5 (by decide)⟩

/-! ## Lemmas about the level-map model -/

theorem find?_replaceKey {m : List (String × Level)} {k : String} {v : Level}
    (h : m.any (fun e => e.1 = k) = true) :
    (m.map (fun e => if e.1 = k then (k, v) else e)).find?
      (fun e => e.1 = k) = some (k, v) := by
  induction m with
  | nil => simp at h
  | cons e t ih =>
    by_cases he : e.1 = k
    · simp [List.find?_cons, he]
    · have hq : (decide (e.1 = k)) = false := decide_eq_false he
      simp only [List.any_cons, hq, Bool.false_or] at h
      simp only [List.map_cons, if_neg he, List.find?_cons, hq]
      exact ih h

theorem find?_replaceKey_ne {m : List (String × Level)} {k : String}
    {v : Level} {k' : String} (hne : ¬ k' = k) :
    (m.map (fun e => if e.1 = k then (k, v) else e)).find?
      (fun e => e.1 = k') = m.find? (fun e => e.1 = k') := by
  induction m with
  | nil => rfl
  | cons e t ih =>
    by_cases he : e.1 = k
    · have h1 : (decide ((k, v).1 = k')) = false :=
        decide_eq_false (fun hkk => hne hkk.symm)
      have h2 : (decide (e.1 = k')) = false := by
        rw [he]
        exact decide_eq_false (fun hkk => hne hkk.symm)
      simp only [List.map_cons, if_pos he, List.find?_cons, h1, h2]
      exact ih
    · by_cases hp : e.1 = k'
      · have h3 : (decide (e.1 = k')) = true := decide_eq_true hp
        simp only [List.map_cons, if_neg he, List.find?_cons, h3]
      · have h3 : (decide (e.1 = k')) = false := decide_eq_false hp
        simp only [List.map_cons, if_neg he, List.find?_cons, h3]
        exact ih

theorem mapFind_mapInsert_self (m : List (String × Level)) (k : String)
    (v : Level) : mapFind (mapInsert m k v) k = some v := by
  unfold mapInsert
  by_cases h : m.any (fun e => e.1 = k) = true
  · rw [if_pos h]
    unfold mapFind
    rw [find?_replaceKey h]
    rfl
  · rw [if_neg h]
    unfold mapFind
    rw [List.find?_append]
    have h1 : m.find? (fun e => e.1 = k) = none := by
      rw [List.find?_eq_none]
      intro a hmem hpred
      exact h (List.any_eq_true.mpr ⟨a, hmem, hpred⟩)
    rw [h1]
    simp [List.find?_cons]

theorem mapFind_mapInsert_ne {m : List (String × Level)} {k : String}
    {v : Level} {k' : String} (hne : ¬ k' = k) :
    mapFind (mapInsert m k v) k' = mapFind m k' := by
  unfold mapInsert
  by_cases h : m.any (fun e => e.1 = k) = true
  · rw [if_pos h]
    unfold mapFind
    rw [find?_replaceKey_ne hne]
  · rw [if_neg h]
    unfold mapFind
    rw [List.find?_append]
    have h1 : List.find? (fun e => e.1 = k') [(k, v)] = none := by
      have : (decide ((k, v).1 = k')) = false :=
        decide_eq_false (fun hkk => hne hkk.symm)
      simp only [List.find?_cons, this, List.find?_nil]
    rw [h1]
    cases m.find? (fun e => decide (e.1 = k')) <;> rfl

theorem mapFind_foldl (g : String → Level) (mods : List String)
    (init : List (String × Level)) (k : String) :
    mapFind (mods.foldl (fun acc m => mapInsert acc m (g m)) init) k =
      if k ∈ mods then some (g k) else mapFind init k := by
  induction mods generalizing init with
  | nil => simp
  | cons x xs ih =>
    rw [List.foldl_cons, ih]
    by_cases hmem : k ∈ xs
    · simp [hmem, List.mem_cons]
    · by_cases hx : k = x
      · subst hx
        simp [hmem, mapFind_mapInsert_self]
      · simp [hmem, hx, mapFind_mapInsert_ne hx]

theorem countKey_replace {m : List (String × Level)} {k : String} {v : Level}
    (k' : String) :
    countKey (m.map (fun e => if e.1 = k then (k, v) else e)) k' =
      countKey m k' := by
  unfold countKey
  rw [List.countP_map]
  apply List.countP_congr
  intro e _
  by_cases he : e.1 = k <;> simp [he]

theorem countKey_append (m₁ m₂ : List (String × Level)) (k : String) :
    countKey (m₁ ++ m₂) k = countKey m₁ k + countKey m₂ k := by
  unfold countKey
  exact List.countP_append ..

theorem countKey_singleton (k k' : String) (v : Level) :
    countKey [(k, v)] k' = if k = k' then 1 else 0 := by
  unfold countKey
  by_cases h : k = k' <;> simp [h]

theorem countKey_eq_zero_of_not_any {m : List (String × Level)} {k : String}
    (h : ¬ m.any (fun e => e.1 = k) = true) : countKey m k = 0 := by
  unfold countKey
  rw [List.countP_eq_zero]
  intro a hmem hpred
  exact h (List.any_eq_true.mpr ⟨a, hmem, hpred⟩)

theorem keyUnique_mapInsert {m : List (String × Level)} {k : String}
    {v : Level} (h : ∀ k', countKey m k' ≤ 1) :
    ∀ k', countKey (mapInsert m k v) k' ≤ 1 := by
  intro k'
  unfold mapInsert
  by_cases ha : m.any (fun e => e.1 = k) = true
  · rw [if_pos ha, countKey_replace]
    exact h k'
  · rw [if_neg ha, countKey_append, countKey_singleton]
    by_cases hk : k = k'
    · subst hk
      rw [countKey_eq_zero_of_not_any ha]
      simp
    · have := h k'
      simp [hk]
      omega

theorem keyUnique_foldl (g : String → Level) (mods : List String) :
    ∀ init : List (String × Level), (∀ k', countKey init k' ≤ 1) →
      ∀ k', countKey (mods.foldl (fun acc m => mapInsert acc m (g m)) init) k' ≤ 1 := by
  induction mods with
  | nil => intro init h k'; exact h k'
  | cons x xs ih =>
    intro init h k'
    rw [List.foldl_cons]
    exact ih (mapInsert init x (g x)) (keyUnique_mapInsert h) k'

theorem keyUnique_snapOf (b : LeveledBackend) (mods : List String) :
    ∀ k, countKey (snapOf b mods) k ≤ 1 := by
  unfold snapOf
  apply keyUnique_foldl
  exact keyUnique_mapInsert (fun k' => by unfold countKey; simp)

theorem countKey_pos_of_mapFind {m : List (String × Level)} {k : String}
    {v : Level} (h : mapFind m k = some v) : 1 ≤ countKey m k := by
  unfold mapFind at h
  obtain ⟨e, he, hev⟩ := Option.map_eq_some'.mp h
  have hmem := List.mem_of_find?_eq_some he
  have hpred := List.find?_some he
  unfold countKey
  have h2 : 0 < m.countP (fun e => decide (e.1 = k)) :=
    List.countP_pos_iff.mpr ⟨e, hmem, hpred⟩
  omega

theorem GetLevel_SetLevel_self (b : LeveledBackend) (l : Level) (m : String) :
    (b.SetLevel l m).GetLevel m = l := by
  unfold LeveledBackend.GetLevel LeveledBackend.SetLevel
  rw [mapFind_mapInsert_self]

@[simp]
theorem Register_backend (n : String) (info : logLevelInfo) :
    (Register n info).backend = info.backend := by
  unfold Register
  split <;> rfl

theorem mem_Register_self (n : String) (info : logLevelInfo) :
    n ∈ (Register n info).modules := by
  unfold Register
  by_cases h : n ∈ info.modules
  · simp [h]
  · simp [h]

/-! ## The level-registry claims -/

/-- C4 counterexample: on the initial (unbound) registry, `ModuleLevels` and
`SetLevel` invoke a method on the nil backend interface — a runtime panic —
instead of surfacing an explicit error value. -/
theorem unbound_calls_panic_counterexample :
    ModuleLevels logInfo = .nilDeref ∧
    SetLevel Level.info "" logInfo = .nilDeref ∧
    logInfo.backend = none :=
  ⟨rfl, rfl, rfl⟩

/-- C4 amended: while the registry is unbound, every `ModuleLevels` or
`SetLevel` call dereferences the missing backend (a nil-interface method
call, i.e. a panic); the code performs no explicit "not initialized"
error handling. -/
theorem unbound_calls_deref_nil (info : logLevelInfo)
    (hb : info.backend = none) :
    ModuleLevels info = .nilDeref ∧
    ∀ (l : Level) (m : String), SetLevel l m info = .nilDeref := by
  constructor
  · unfold ModuleLevels
    rw [hb]
  · intro l m
    unfold SetLevel
    rw [hb]

/-- C4 amended witness: the initial registry is unbound and `ModuleLevels`
panics on it. -/
theorem unbound_calls_deref_nil_witness :
    ModuleLevels logInfo = .nilDeref :=
  (unbound_calls_deref_nil logInfo rfl).1

/-- C6: a second initialisation call leaves the tracked module set unchanged
and replaces the backend, and afterwards `ModuleLevels` reads and `SetLevel`
writes through the most recently installed backend. -/
theorem initialiseLogging_rebind (v1 v2 : Verbosity) (info : logLevelInfo) :
    (initialiseLogging v2 (initialiseLogging v1 info)).modules = info.modules ∧
    (initialiseLogging v2 (initialiseLogging v1 info)).backend =
      some (initLogging v2) ∧
    ModuleLevels (initialiseLogging v2 (initialiseLogging v1 info)) =
      .ok (snapOf (initLogging v2) info.modules) ∧
    (∀ (l : Level) (m : String),
      SetLevel l m (initialiseLogging v2 (initialiseLogging v1 info)) =
        .ok ⟨some ((initLogging v2).SetLevel l m), info.modules⟩) :=
  ⟨rfl, rfl, rfl, fun _ _ => rfl⟩

/-- C7: on a bound registry, a `SetLevel` made after registering the module
is reflected by the next `ModuleLevels` without re-registration, and the
returned mapping is recomputed from the registry state alone — whatever a
caller turns its copy into, a later call still returns the true snapshot. -/
theorem SetLevel_reflected_snapshot_fresh (info : logLevelInfo)
    (b : LeveledBackend) (name : String) (l : Level)
    (hb : info.backend = some b) :
    SetLevel l name (Register name info) =
      .ok ⟨some (b.SetLevel l name), (Register name info).modules⟩ ∧
    ModuleLevels ⟨some (b.SetLevel l name), (Register name info).modules⟩ =
      .ok (snapOf (b.SetLevel l name) (Register name info).modules) ∧
    mapFind (snapOf (b.SetLevel l name) (Register name info).modules) name =
      some l ∧
    (∀ g : List (String × Level) → List (String × Level),
      g (snapOf (b.SetLevel l name) (Register name info).modules) ≠
        snapOf (b.SetLevel l name) (Register name info).modules →
      ModuleLevels ⟨some (b.SetLevel l name), (Register name info).modules⟩ ≠
        .ok (g (snapOf (b.SetLevel l name) (Register name info).modules))) := by
  have hb' : (Register name info).backend = some b := by
    rw [Register_backend, hb]
  refine ⟨?_, rfl, ?_, ?_⟩
  · unfold SetLevel
    rw [hb']
  · unfold snapOf
    rw [mapFind_foldl, if_pos (mem_Register_self name info),
      GetLevel_SetLevel_self]
  · intro g hg hEq
    have : (CallOutcome.ok (snapOf (b.SetLevel l name)
          (Register name info).modules) :
        CallOutcome (List (String × Level))) =
        .ok (g (snapOf (b.SetLevel l name) (Register name info).modules)) :=
      hEq
    injection this with h'
    exact hg h'.symm

/-- C7 witness: on a concrete bound registry, after `Register "mod"` and
`SetLevel debug "mod"` the snapshot maps "mod" to DEBUG. -/
theorem SetLevel_reflected_snapshot_fresh_witness :
    mapFind (snapOf ((⟨[("", Level.info)]⟩ : LeveledBackend).SetLevel
        Level.debug "mod") (Register "mod" infoBound).modules) "mod" =
      some Level.debug :=
  (SetLevel_reflected_snapshot_fresh infoBound ⟨[("", Level.info)]⟩ "mod"
    Level.debug rfl).2.2.1

/-- C8: `Register` is idempotent — registering a name twice leaves the
registry in the same state as registering it once — and the snapshot
`ModuleLevels` then returns holds exactly one entry for that name and
exactly one synthetic root entry for the empty string. -/
theorem Register_idem (name : String) (info : logLevelInfo)
    (b : LeveledBackend) (hb : info.backend = some b) :
    Register name (Register name info) = Register name info ∧
    ModuleLevels (Register name (Register name info)) =
      .ok (snapOf b (Register name info).modules) ∧
    countKey (snapOf b (Register name info).modules) name = 1 ∧
    countKey (snapOf b (Register name info).modules) "" = 1 := by
  have hidem : Register name (Register name info) = Register name info := by
    unfold Register
    by_cases h : name ∈ info.modules
    · simp [h]
    · simp [h]
  have hb' : (Register name info).backend = some b := by
    rw [Register_backend, hb]
  refine ⟨hidem, ?_, ?_, ?_⟩
  · rw [hidem]
    unfold ModuleLevels
    rw [hb']
  · have hfind : mapFind (snapOf b (Register name info).modules) name =
        some (b.GetLevel name) := by
      unfold snapOf
      rw [mapFind_foldl, if_pos (mem_Register_self name info)]
    have h1 := countKey_pos_of_mapFind hfind
    have h2 := keyUnique_snapOf b (Register name info).modules name
    omega
  · have hfind : (mapFind (snapOf b (Register name info).modules) "").isSome := by
      unfold snapOf
      rw [mapFind_foldl]
      by_cases h : "" ∈ (Register name info).modules
      · rw [if_pos h]
        rfl
      · rw [if_neg h, mapFind_mapInsert_self]
        rfl
    obtain ⟨v, hv⟩ := Option.isSome_iff_exists.mp hfind
    have h1 := countKey_pos_of_mapFind hv
    have h2 := keyUnique_snapOf b (Register name info).modules ""
    omega

/-- C8 witness: registering "mod" twice on a concrete bound registry is the
same as registering it once, and the snapshot holds one "mod" entry and one
root entry. -/
theorem Register_idem_witness :
    Register "mod" (Register "mod" infoBound) = Register "mod" infoBound ∧
    ModuleLevels (Register "mod" (Register "mod" infoBound)) =
      .ok (snapOf ⟨[("", Level.info)]⟩ (Register "mod" infoBound).modules) ∧
    countKey (snapOf ⟨[("", Level.info)]⟩
      (Register "mod" infoBound).modules) "mod" = 1 ∧
    countKey (snapOf ⟨[("", Level.info)]⟩
      (Register "mod" infoBound).modules) "" = 1 :=
  Register_idem "mod" infoBound ⟨[("", Level.info)]⟩ rfl

end GoCliInit
